import Mathlib

/-!
Shallow embedding of the MassiveSweeper front-end chunked-grid engine.

Sources embedded here:
- constants/game (CHUNK_SIZE, CELL_SIZE, ZOOM_LIMITS, buffer helpers,
  worldToChunk, worldToLocal, clampZoom, isWithinGridBounds, expandChunkBounds)
- hooks/useChunkedGridStore (requestChunk, setChunk, updateCell,
  clearRequestedChunk, setGridSize, the connect_error handler)
- canvas/GridCanvas (getVisibleBounds, calculateVisibleChunks,
  getMouseGridCoordinates, handleMouseDown, handleMouseUp, handleMouseMove,
  handleWheel)

Modelling conventions: JS numbers that only flow through +, -, *, / are
embedded as rationals; values that are produced by Math.floor or are
integer-valued at every use site are embedded as Int.  JS string chunk keys
of the shape "cx,cy" are in bijection with the pair (cx, cy) of integers
(the comma separates the two decimal renderings), so keys are embedded as
Int pairs; string equality coincides with pair equality under this
bijection.  The zustand store is explicit state passing; socket.emit calls
are collected in an explicit emission list.
-/

namespace MassiveSweeper

/-- CHUNK_SIZE from constants/game: side length of a chunk in cells. -/
def CHUNK_SIZE : Int := 100

/-- CELL_SIZE from constants/game: side length of a cell in pixels. -/
def CELL_SIZE : ℚ := 10

/-- ZOOM_LIMITS.MIN from constants/game. -/
def ZOOM_MIN : ℚ := 35 / 100

/-- ZOOM_LIMITS.MAX from constants/game. -/
def ZOOM_MAX : ℚ := 4

/-- ZOOM_INTENSITY from constants/game. -/
def ZOOM_INTENSITY : ℚ := 1 / 10

/-- MIN_VISIBLE_CHUNKS from constants/game. -/
def MIN_VISIBLE_CHUNKS : ℚ := 4

/-- MAX_BUFFER_ZONE from constants/game. -/
def MAX_BUFFER_ZONE : Int := 3

/-- worldToChunk from constants/game: Math.floor(worldCoord / CHUNK_SIZE). -/
def worldToChunk (worldCoord : ℚ) : Int :=
  Int.floor (worldCoord / (CHUNK_SIZE : ℚ))

/-- worldToLocal from constants/game:
((worldCoord % CHUNK_SIZE) + CHUNK_SIZE) % CHUNK_SIZE, where the JS %
operator on integers is the truncating remainder Int.tmod. -/
def worldToLocal (worldCoord : Int) : Int :=
  Int.tmod (Int.tmod worldCoord CHUNK_SIZE + CHUNK_SIZE) CHUNK_SIZE

/-- isWithinGridBounds from constants/game. -/
def isWithinGridBounds (x y gridWidth gridHeight : Int) : Prop :=
  0 ≤ x ∧ 0 ≤ y ∧ x < gridWidth ∧ y < gridHeight

instance (x y w h : Int) : Decidable (isWithinGridBounds x y w h) := by
  unfold isWithinGridBounds
  infer_instance

/-- clampZoom from constants/game:
Math.max(ZOOM_LIMITS.MIN, Math.min(ZOOM_LIMITS.MAX, zoom)). -/
def clampZoom (zoom : ℚ) : ℚ :=
  max ZOOM_MIN (min ZOOM_MAX zoom)

/-- getBufferZoneSize from constants/game. -/
def getBufferZoneSize (zoom : ℚ) : Int :=
  if 2 ≤ zoom then min MAX_BUFFER_ZONE 3
  else if 1 ≤ zoom then min MAX_BUFFER_ZONE 2
  else if 1 / 2 ≤ zoom then min MAX_BUFFER_ZONE 1
  else 0

/-- Rectangle of chunk coordinates, as used by expandChunkBounds. -/
structure ChunkBounds where
  left : Int
  top : Int
  right : Int
  bottom : Int
  deriving DecidableEq

/-- expandChunkBounds from constants/game. -/
def expandChunkBounds (bounds : ChunkBounds) (bufferSize : Int) : ChunkBounds :=
  { left := max 0 (bounds.left - bufferSize)
    top := max 0 (bounds.top - bufferSize)
    right := bounds.right + bufferSize
    bottom := bounds.bottom + bufferSize }

/-- Cell record from useChunkedGridStore. -/
structure Cell where
  x : Int
  y : Int
  revealed : Bool
  hasMine : Bool
  adjacentMines : Int
  flagged : Bool
  deriving DecidableEq

/-- Chunk = Cell[][] indexed [localY][localX]. -/
abbrev Chunk := List (List Cell)

/-- Chunk keys: the JS string key "cx,cy" embedded as the integer pair. -/
abbrev ChunkKey := Int × Int

/-- Grid size record fetched from the server. -/
structure GridSize where
  width : Int
  height : Int
  deriving DecidableEq

/-- State of the zustand store in useChunkedGridStore.  loadedChunks is the
JS object embedded as a first-match association list; requestedChunks is
the JS Set embedded as a list (the dedup guard keeps it duplicate free). -/
structure ChunkedGridState where
  loadedChunks : List (ChunkKey × Chunk)
  requestedChunks : List ChunkKey
  gridSize : Option GridSize
  chunkSize : Int
  deriving DecidableEq

/-- Lookup state.loadedChunks[key]; undefined becomes none. -/
def lookupChunk (s : ChunkedGridState) (key : ChunkKey) : Option Chunk :=
  (s.loadedChunks.find? (fun p => decide (p.1 = key))).map Prod.snd

/-- Outbound socket.emit events of the engine. -/
inductive Emit where
  | getChunk (cx cy : Int)
  | revealCell (cx cy x y : Int)
  | flagCell (cx cy x y : Int)
  | chordClick (cx cy : Int) (x y : Int)
  deriving DecidableEq

/-- Math.floor(dimension / chunkSize) - 1, computed inline in requestChunk
and calculateVisibleChunks (floor of the exact rational quotient of two
integers is Int.fdiv). -/
def maxChunkCoord (dimension chunkSize : Int) : Int :=
  Int.fdiv dimension chunkSize - 1

/-- Math.max(0, Math.min(c, maxCoord)), the clamp in requestChunk. -/
def clampChunkCoord (c maxCoord : Int) : Int :=
  max 0 (min c maxCoord)

/-- The clamped key computed by requestChunk:
(Math.max(0, Math.min(cx, maxChunkX)), Math.max(0, Math.min(cy, maxChunkY))). -/
def requestKey (g : GridSize) (chunkSize cx cy : Int) : ChunkKey :=
  (clampChunkCoord cx (maxChunkCoord g.width chunkSize),
   clampChunkCoord cy (maxChunkCoord g.height chunkSize))

/-- requestChunk from useChunkedGridStore: no-op while gridSize is null;
else clamp to the chunk-coordinate bounds and, when the clamped key is
neither cached nor pending, mark it pending and emit one get_chunk. -/
def requestChunk (s : ChunkedGridState) (cx cy : Int) :
    ChunkedGridState × List Emit :=
  match s.gridSize with
  | none => (s, [])
  | some g =>
    let key : ChunkKey := requestKey g s.chunkSize cx cy
    if lookupChunk s key = none ∧ key ∉ s.requestedChunks then
      ({ s with requestedChunks := key :: s.requestedChunks },
        [Emit.getChunk key.1 key.2])
    else
      (s, [])

/-- setChunk from useChunkedGridStore: store the chunk under its key and
filter the key out of the requested set. -/
def setChunk (s : ChunkedGridState) (cx cy : Int) (chunk : Chunk) :
    ChunkedGridState :=
  let key : ChunkKey := (cx, cy)
  { s with
    loadedChunks := (key, chunk) :: s.loadedChunks
    requestedChunks := s.requestedChunks.filter (fun k => decide (k ≠ key)) }

/-- updateCell from useChunkedGridStore: if the chunk is cached, replace
the single cell at row y, column x; otherwise leave the state unchanged. -/
def updateCell (s : ChunkedGridState) (cx cy x y : Int) (cell : Cell) :
    ChunkedGridState :=
  let key : ChunkKey := (cx, cy)
  match lookupChunk s key with
  | none => s
  | some chunk =>
    let newChunk : Chunk :=
      chunk.mapIdx (fun rowIdx row =>
        if (rowIdx : Int) = y then
          row.mapIdx (fun colIdx c => if (colIdx : Int) = x then cell else c)
        else row)
    { s with loadedChunks := (key, newChunk) :: s.loadedChunks }

/-- clearRequestedChunk from useChunkedGridStore. -/
def clearRequestedChunk (s : ChunkedGridState) (cx cy : Int) :
    ChunkedGridState :=
  let key : ChunkKey := (cx, cy)
  { s with requestedChunks := s.requestedChunks.filter (fun k => decide (k ≠ key)) }

/-- setGridSize from useChunkedGridStore. -/
def setGridSize (s : ChunkedGridState) (width height : Int) :
    ChunkedGridState :=
  { s with gridSize := some { width := width, height := height } }

/-- The connect_error handler: iterate over the snapshot of the requested
set and clearRequestedChunk each key (key.split followed by Number is the
inverse of the key bijection, so it is the identity on the pair). -/
def connectError (s : ChunkedGridState) : ChunkedGridState :=
  s.requestedChunks.foldl (fun st k => clearRequestedChunk st k.1 k.2) s

/-- Initial store state of useChunkedGridStore. -/
def initialState : ChunkedGridState :=
  { loadedChunks := []
    requestedChunks := []
    gridSize := none
    chunkSize := 100 }

/-- Store operations that can fire on the single JS thread: viewport-driven
requests, the two inbound socket handlers, the error-path clear, the
bootstrap grid-size arrival and the connect_error handler. -/
inductive Op where
  | request (cx cy : Int)
  | chunkData (cx cy : Int) (chunk : Chunk)
  | cellUpdate (cx cy x y : Int) (cell : Cell)
  | clearReq (cx cy : Int)
  | setGrid (width height : Int)
  | connErr
  deriving DecidableEq

/-- One store transition together with its emissions. -/
def stepOp (s : ChunkedGridState) : Op → ChunkedGridState × List Emit
  | Op.request cx cy => requestChunk s cx cy
  | Op.chunkData cx cy chunk => (setChunk s cx cy chunk, [])
  | Op.cellUpdate cx cy x y cell => (updateCell s cx cy x y cell, [])
  | Op.clearReq cx cy => (clearRequestedChunk s cx cy, [])
  | Op.setGrid w h => (setGridSize s w h, [])
  | Op.connErr => (connectError s, [])

/-- Run a sequence of operations from a state, discarding emissions. -/
def runOps (s : ChunkedGridState) (ops : List Op) : ChunkedGridState :=
  ops.foldl (fun st op => (stepOp st op).1) s

/-- Store state instrumented with the number of outstanding fetches per
chunk key: a get_chunk emission opens one; a chunk_data arrival for the
key answers it; clearRequestedChunk and the connect_error sweep invalidate
it (the spec counts those fetches as no longer outstanding). -/
structure TrackedState where
  store : ChunkedGridState
  outstanding : ChunkKey → Nat

/-- Instrumented transition. -/
def stepTracked (t : TrackedState) : Op → TrackedState
  | Op.request cx cy =>
    let r := requestChunk t.store cx cy
    { store := r.1
      outstanding := fun k =>
        t.outstanding k + r.2.countP (fun e => decide (e = Emit.getChunk k.1 k.2)) }
  | Op.chunkData cx cy chunk =>
    { store := setChunk t.store cx cy chunk
      outstanding := fun k => if k = (cx, cy) then 0 else t.outstanding k }
  | Op.cellUpdate cx cy x y cell =>
    { store := updateCell t.store cx cy x y cell
      outstanding := t.outstanding }
  | Op.clearReq cx cy =>
    { store := clearRequestedChunk t.store cx cy
      outstanding := fun k => if k = (cx, cy) then 0 else t.outstanding k }
  | Op.setGrid w h =>
    { store := setGridSize t.store w h
      outstanding := t.outstanding }
  | Op.connErr =>
    { store := connectError t.store
      outstanding := fun k => if k ∈ t.store.requestedChunks then 0 else t.outstanding k }

/-- Run the instrumented semantics. -/
def runTracked (t : TrackedState) (ops : List Op) : TrackedState :=
  ops.foldl stepTracked t

/-- Instrumented initial state: empty store, no outstanding fetches. -/
def initialTracked : TrackedState :=
  { store := initialState, outstanding := fun _ => 0 }

/-! ### GridCanvas: viewport, input handlers, visibility calculator -/

/-- React state of GridCanvas relevant to pointer handling, plus the canvas
bounding rectangle origin used by the handlers. -/
structure Viewport where
  offsetX : ℚ
  offsetY : ℚ
  zoom : ℚ
  rectLeft : ℚ
  rectTop : ℚ
  canvasWidth : ℚ
  canvasHeight : ℚ
  deriving DecidableEq

/-- Result of getMouseGridCoordinates. -/
structure Coords where
  cellX : Int
  cellY : Int
  cx : ℚ
  cy : ℚ
  deriving DecidableEq

/-- getMouseGridCoordinates from GridCanvas (the canvas element is present
in this model, so the null early-return is dropped). -/
def getMouseGridCoordinates (vp : Viewport) (clientX clientY : ℚ) : Coords :=
  let cx := (clientX - vp.rectLeft - vp.offsetX) / vp.zoom
  let cy := (clientY - vp.rectTop - vp.offsetY) / vp.zoom
  { cellX := Int.floor (cx / CELL_SIZE)
    cellY := Int.floor (cy / CELL_SIZE)
    cx := cx
    cy := cy }

/-- Pointer-interaction React state of GridCanvas. -/
structure InputState where
  pressedButtons : List Nat
  pressedCell : Option (Int × Int)
  hoverCell : Option (Int × Int)
  isPanning : Bool
  lastMouse : Option (ℚ × ℚ)
  isSpaceDown : Bool
  gridSize : Option GridSize
  deriving DecidableEq

/-- handleMouseDown from GridCanvas: always add the button to the held set;
when the space modifier is down start panning, otherwise record the pressed
cell provided both cell coordinates are non-negative. -/
def handleMouseDown (st : InputState) (vp : Viewport) (button : Nat)
    (clientX clientY : ℚ) : InputState :=
  let st1 := { st with pressedButtons := st.pressedButtons.insert button }
  if st.isSpaceDown then
    { st1 with isPanning := true, lastMouse := some (clientX, clientY) }
  else
    let coords := getMouseGridCoordinates vp clientX clientY
    if 0 ≤ coords.cellX ∧ 0 ≤ coords.cellY then
      { st1 with pressedCell := some (coords.cellX, coords.cellY) }
    else
      st1

/-- handleMouseUp from GridCanvas: drop the released button and the pressed
cell, finish panning if panning, otherwise commit chord, reveal or flag
when the pointer is still over the pressed cell.  The second component
collects the socket emissions of the committed action. -/
def handleMouseUp (st : InputState) (vp : Viewport) (button : Nat)
    (clientX clientY : ℚ) : InputState × List Emit :=
  let st1 := { st with
    pressedButtons := st.pressedButtons.erase button
    pressedCell := none }
  if st.isPanning then
    ({ st1 with isPanning := false, lastMouse := none }, [])
  else
    match st.pressedCell with
    | none => (st1, [])
    | some p =>
      let coords := getMouseGridCoordinates vp clientX clientY
      if coords.cellX = p.1 ∧ coords.cellY = p.2 then
        let chunkX := worldToChunk (coords.cellX : ℚ)
        let chunkY := worldToChunk (coords.cellY : ℚ)
        let localX := worldToLocal coords.cellX
        let localY := worldToLocal coords.cellY
        let currentPressedButtons := st.pressedButtons.insert button
        if 0 ∈ currentPressedButtons ∧ 2 ∈ currentPressedButtons then
          (st1, [Emit.chordClick chunkX chunkY localX localY])
        else if button = 0 then
          (st1, [Emit.revealCell chunkX chunkY localX localY])
        else if button = 2 then
          (st1, [Emit.flagCell chunkX chunkY localX localY])
        else
          (st1, [])
      else
        (st1, [])

/-- handleMouseMove from GridCanvas: outside of an active pan, set the
hovered cell when the pointer is over an in-bounds cell and clear it
otherwise; during an active pan translate the offset by the pointer delta.
Returns the new interaction state and the new offset pair. -/
def handleMouseMove (st : InputState) (vp : Viewport)
    (clientX clientY : ℚ) : InputState × (ℚ × ℚ) :=
  let st1 :=
    if ¬(st.isPanning = true ∧ st.lastMouse.isSome = true) then
      let coords := getMouseGridCoordinates vp clientX clientY
      match st.gridSize with
      | some g =>
        if isWithinGridBounds coords.cellX coords.cellY g.width g.height then
          { st with hoverCell := some (coords.cellX, coords.cellY) }
        else
          { st with hoverCell := none }
      | none => { st with hoverCell := none }
    else
      st
  match st.isPanning, st.lastMouse with
  | true, some lm =>
    ({ st1 with lastMouse := some (clientX, clientY) },
      (vp.offsetX + (clientX - lm.1), vp.offsetY + (clientY - lm.2)))
  | _, _ => (st1, (vp.offsetX, vp.offsetY))

/-- The effective minimum zoom computed in handleWheel:
Math.max(minZoomX, minZoomY, ZOOM_LIMITS.MIN). -/
def effectiveMinZoom (canvasWidth canvasHeight : ℚ) : ℚ :=
  let minZoomX := canvasWidth / ((CHUNK_SIZE : ℚ) * MIN_VISIBLE_CHUNKS * CELL_SIZE)
  let minZoomY := canvasHeight / ((CHUNK_SIZE : ℚ) * MIN_VISIBLE_CHUNKS * CELL_SIZE)
  max (max minZoomX minZoomY) ZOOM_MIN

/-- handleWheel from GridCanvas: compute the world point under the cursor,
step the zoom by the wheel delta, clamp it with clampZoom, and re-anchor
the offset at the cursor.  The minZoom locals are computed by the source
but do not feed into the committed zoom, which only passes through
clampZoom.  Returns (newZoom, newOffsetX, newOffsetY). -/
def handleWheel (vp : Viewport) (clientX clientY deltaY : ℚ) :
    ℚ × ℚ × ℚ :=
  let mouseX := clientX - vp.rectLeft
  let mouseY := clientY - vp.rectTop
  let worldX := (mouseX - vp.offsetX) / vp.zoom
  let worldY := (mouseY - vp.offsetY) / vp.zoom
  let newZoom := clampZoom (vp.zoom - deltaY * ZOOM_INTENSITY * (1 / 100))
  (newZoom, mouseX - worldX * newZoom, mouseY - worldY * newZoom)

/-- getVisibleBounds from GridCanvas, as a function of the viewport state
and grid size.  Returns (left, top, right, bottom) in cell coordinates. -/
def getVisibleBounds (gridSize : Option GridSize) (offsetX offsetY zoom canvasWidth canvasHeight : ℚ) :
    Int × Int × Int × Int :=
  match gridSize with
  | none => (0, 0, 0, 0)
  | some g =>
    let left := max 0 (Int.floor ((-offsetX) / (CELL_SIZE * zoom)))
    let top := max 0 (Int.floor ((-offsetY) / (CELL_SIZE * zoom)))
    let right := min g.width (Int.ceil ((canvasWidth - offsetX) / (CELL_SIZE * zoom)))
    let bottom := min g.height (Int.ceil ((canvasHeight - offsetY) / (CELL_SIZE * zoom)))
    (left, top, right, bottom)

/-- The un-buffered visible chunk rectangle computed at the top of
calculateVisibleChunks (Math.floor of integer quotients). -/
def visibleChunkBounds (gridSize : Option GridSize) (offsetX offsetY zoom canvasWidth canvasHeight : ℚ) :
    ChunkBounds :=
  let b := getVisibleBounds gridSize offsetX offsetY zoom canvasWidth canvasHeight
  { left := Int.fdiv b.1 CHUNK_SIZE
    top := Int.fdiv b.2.1 CHUNK_SIZE
    right := Int.fdiv (b.2.2.1 - 1) CHUNK_SIZE
    bottom := Int.fdiv (b.2.2.2 - 1) CHUNK_SIZE }

/-- The buffer-expanded and clamped chunk rectangle of
calculateVisibleChunks. -/
def finalChunkBounds (g : GridSize) (offsetX offsetY zoom canvasWidth canvasHeight : ℚ) :
    ChunkBounds :=
  let vb := visibleChunkBounds (some g) offsetX offsetY zoom canvasWidth canvasHeight
  let bufferSize := getBufferZoneSize zoom
  let expanded := expandChunkBounds vb bufferSize
  let maxChunkX := Int.fdiv g.width CHUNK_SIZE - 1
  let maxChunkY := Int.fdiv g.height CHUNK_SIZE - 1
  { left := max 0 (min expanded.left maxChunkX)
    top := max 0 (min expanded.top maxChunkY)
    right := max 0 (min expanded.right maxChunkX)
    bottom := max 0 (min expanded.bottom maxChunkY) }

/-- Closed integer interval [lo, hi] as a list, for the chunk loops. -/
def rangeInc (lo hi : Int) : List Int :=
  (List.range (hi + 1 - lo).toNat).map (fun (i : Nat) => lo + (i : Int))

/-- calculateVisibleChunks from GridCanvas: the cross product of the final
chunk rectangle, outer loop over cy, inner loop over cx. -/
def calculateVisibleChunks (gridSize : Option GridSize) (offsetX offsetY zoom canvasWidth canvasHeight : ℚ) :
    List (Int × Int) :=
  match gridSize with
  | none => []
  | some g =>
    let fb := finalChunkBounds g offsetX offsetY zoom canvasWidth canvasHeight
    (rangeInc fb.top fb.bottom).flatMap (fun cy =>
      (rangeInc fb.left fb.right).map (fun cx => (cx, cy)))

/-! ### Helper lemmas -/

/-- Math.floor of the exact quotient of an integer by 100 is floor
division. -/
theorem worldToChunk_intCast (c : Int) :
    worldToChunk (c : ℚ) = Int.fdiv c CHUNK_SIZE := by
  have h := Rat.floor_intCast_div_natCast c 100
  unfold worldToChunk CHUNK_SIZE
  rw [Int.fdiv_eq_ediv _ (by norm_num)]
  simpa using h

/-- The truncating remainder of any integer by 100 lies in (-100, 100). -/
theorem tmod_hundred_bounds (c : Int) :
    -100 < Int.tmod c 100 ∧ Int.tmod c 100 < 100 := by
  refine ⟨?_, Int.tmod_lt_of_pos c (by norm_num)⟩
  cases c with
  | ofNat n =>
    have := Int.tmod_nonneg (a := Int.ofNat n) 100 (Int.ofNat_nonneg n)
    omega
  | negSucc m =>
    have hm : Int.tmod (Int.negSucc m) 100 = -(((m + 1) % 100 : Nat) : Int) := rfl
    have hlt : (m + 1) % 100 < 100 := Nat.mod_lt _ (by norm_num)
    omega

/-- The double-remainder in worldToLocal agrees with the Euclidean
remainder by 100. -/
theorem worldToLocal_eq_emod (c : Int) :
    worldToLocal c = c % CHUNK_SIZE := by
  unfold worldToLocal CHUNK_SIZE
  have hb := tmod_hundred_bounds c
  have hadd := Int.tmod_add_tdiv c 100
  rw [Int.tmod_eq_emod (by omega) (by norm_num)]
  omega

/-- clampZoom output is at least the configured floor, hence positive. -/
theorem clampZoom_pos (z : ℚ) : 0 < clampZoom z := by
  have h : ZOOM_MIN ≤ clampZoom z := le_max_left _ _
  have : (0 : ℚ) < ZOOM_MIN := by norm_num [ZOOM_MIN]
  linarith

/-- The buffer size is never negative. -/
theorem getBufferZoneSize_nonneg (zoom : ℚ) : 0 ≤ getBufferZoneSize zoom := by
  unfold getBufferZoneSize MAX_BUFFER_ZONE
  split_ifs <;> norm_num

/-- Membership in the closed integer interval list. -/
theorem mem_rangeInc (lo hi x : Int) :
    x ∈ rangeInc lo hi ↔ lo ≤ x ∧ x ≤ hi := by
  unfold rangeInc
  simp only [List.mem_map, List.mem_range]
  constructor
  · rintro ⟨i, hilt, rfl⟩
    omega
  · rintro ⟨h1, h2⟩
    exact ⟨(x - lo).toNat, by omega, by omega⟩

/-! ### C9: chunk/local decomposition -/

/-- C9: for every integer c, worldToChunk(c) · CHUNK_SIZE + worldToLocal(c)
= c and 0 ≤ worldToLocal(c) < CHUNK_SIZE, including negative c, so the
chunk/local pair is a Euclidean floor-division/modulus decomposition. -/
theorem worldToChunk_worldToLocal_decomposition (c : Int) :
    worldToChunk (c : ℚ) * CHUNK_SIZE + worldToLocal c = c ∧
    0 ≤ worldToLocal c ∧ worldToLocal c < CHUNK_SIZE := by
  rw [worldToChunk_intCast, worldToLocal_eq_emod]
  unfold CHUNK_SIZE
  rw [Int.fdiv_eq_ediv _ (by norm_num)]
  omega

/-! ### C8: anchor-preserving zoom -/

/-- C8: for every wheel event, the world point under the cursor before the
zoom change re-maps to the same canvas point after it: (mouse − newOffset)
/ newZoom equals (mouse − oldOffset) / oldZoom exactly, in both axes. -/
theorem handleWheel_anchor_preserving (vp : Viewport)
    (clientX clientY deltaY : ℚ) (_hz : vp.zoom ≠ 0) :
    ((clientX - vp.rectLeft) - (handleWheel vp clientX clientY deltaY).2.1) /
        (handleWheel vp clientX clientY deltaY).1
      = ((clientX - vp.rectLeft) - vp.offsetX) / vp.zoom ∧
    ((clientY - vp.rectTop) - (handleWheel vp clientX clientY deltaY).2.2) /
        (handleWheel vp clientX clientY deltaY).1
      = ((clientY - vp.rectTop) - vp.offsetY) / vp.zoom := by
  have hnz : (handleWheel vp clientX clientY deltaY).1 ≠ 0 := by
    have := clampZoom_pos (vp.zoom - deltaY * ZOOM_INTENSITY * (1 / 100))
    unfold handleWheel
    exact ne_of_gt this
  unfold handleWheel at hnz ⊢
  constructor
  · have h : (clientX - vp.rectLeft) -
        ((clientX - vp.rectLeft) -
          ((clientX - vp.rectLeft) - vp.offsetX) / vp.zoom *
            clampZoom (vp.zoom - deltaY * ZOOM_INTENSITY * (1 / 100)))
        = ((clientX - vp.rectLeft) - vp.offsetX) / vp.zoom *
            clampZoom (vp.zoom - deltaY * ZOOM_INTENSITY * (1 / 100)) := by
      ring
    rw [h, mul_div_assoc, div_self hnz, mul_one]
  · have h : (clientY - vp.rectTop) -
        ((clientY - vp.rectTop) -
          ((clientY - vp.rectTop) - vp.offsetY) / vp.zoom *
            clampZoom (vp.zoom - deltaY * ZOOM_INTENSITY * (1 / 100)))
        = ((clientY - vp.rectTop) - vp.offsetY) / vp.zoom *
            clampZoom (vp.zoom - deltaY * ZOOM_INTENSITY * (1 / 100)) := by
      ring
    rw [h, mul_div_assoc, div_self hnz, mul_one]

/-- Concrete viewport of the anchor-invariance scenario: canvas point
(400,300) over world point (120,80) at zoom 1. -/
def vpAnchor : Viewport :=
  { offsetX := 280, offsetY := 220, zoom := 1, rectLeft := 0, rectTop := 0,
    canvasWidth := 800, canvasHeight := 600 }

/-- Witness for C8: zooming from 1.0 to 2.0 at canvas point (400,300) over
world point (120,80) keeps that world point under the cursor. -/
theorem handleWheel_anchor_preserving_witness :
    ((400 : ℚ) - vpAnchor.rectLeft - (handleWheel vpAnchor 400 300 (-1000)).2.1) /
        (handleWheel vpAnchor 400 300 (-1000)).1
      = ((400 : ℚ) - vpAnchor.rectLeft - vpAnchor.offsetX) / vpAnchor.zoom ∧
    ((300 : ℚ) - vpAnchor.rectTop - (handleWheel vpAnchor 400 300 (-1000)).2.2) /
        (handleWheel vpAnchor 400 300 (-1000)).1
      = ((300 : ℚ) - vpAnchor.rectTop - vpAnchor.offsetY) / vpAnchor.zoom :=
  handleWheel_anchor_preserving vpAnchor 400 300 (-1000) (by norm_num [vpAnchor])

/-! ### C5: the min-visible-chunks zoom floor is computed but not applied -/

/-- Viewport exposing the unused zoom floor: an 8000 px wide canvas makes
the min-visible-chunks floor 8000 / (100 · 4 · 10) = 2. -/
def vpWideCanvas : Viewport :=
  { offsetX := 0, offsetY := 0, zoom := 1 / 2, rectLeft := 0, rectTop := 0,
    canvasWidth := 8000, canvasHeight := 600 }

/-- C5: a zoom-out wheel event on the wide canvas commits zoom 0.35, the
configured floor, even though the effective minimum demanded by the claim
is 2: the minZoom locals in handleWheel never reach the committed value. -/
theorem handleWheel_ignores_effectiveMinZoom :
    (handleWheel vpWideCanvas 100 100 1000).1 = 35 / 100 ∧
    effectiveMinZoom vpWideCanvas.canvasWidth vpWideCanvas.canvasHeight = 2 ∧
    (handleWheel vpWideCanvas 100 100 1000).1 <
      effectiveMinZoom vpWideCanvas.canvasWidth vpWideCanvas.canvasHeight := by
  refine ⟨?_, ?_, ?_⟩ <;>
    norm_num [handleWheel, clampZoom, effectiveMinZoom, vpWideCanvas,
      ZOOM_MIN, ZOOM_MAX, ZOOM_INTENSITY, CHUNK_SIZE, CELL_SIZE,
      MIN_VISIBLE_CHUNKS]

/-! ### C2: commit semantics of mouse-up -/

/-- C2: on mouse-up with a recorded pressed cell and no active pan, a chord
commits iff the held-button set together with the released button contains
both button 0 and button 2 and the release cell equals the pressed cell;
under the same-cell condition without both buttons exactly one reveal
(button 0) or one flag (button 2) commits and nothing otherwise; and a
release over a different cell commits nothing. -/
theorem handleMouseUp_commit_cases (st : InputState) (vp : Viewport)
    (button : Nat) (clientX clientY : ℚ) (p : Int × Int)
    (hp : st.pressedCell = some p) (hpan : st.isPanning = false) :
    ((∃ a b x y, Emit.chordClick a b x y ∈ (handleMouseUp st vp button clientX clientY).2) ↔
      (0 ∈ st.pressedButtons.insert button ∧ 2 ∈ st.pressedButtons.insert button ∧
        (getMouseGridCoordinates vp clientX clientY).cellX = p.1 ∧
        (getMouseGridCoordinates vp clientX clientY).cellY = p.2)) ∧
    ((getMouseGridCoordinates vp clientX clientY).cellX = p.1 →
      (getMouseGridCoordinates vp clientX clientY).cellY = p.2 →
      ¬(0 ∈ st.pressedButtons.insert button ∧ 2 ∈ st.pressedButtons.insert button) →
      (button = 0 →
        (handleMouseUp st vp button clientX clientY).2 =
          [Emit.revealCell (worldToChunk ((p.1 : Int) : ℚ)) (worldToChunk ((p.2 : Int) : ℚ))
            (worldToLocal p.1) (worldToLocal p.2)]) ∧
      (button = 2 →
        (handleMouseUp st vp button clientX clientY).2 =
          [Emit.flagCell (worldToChunk ((p.1 : Int) : ℚ)) (worldToChunk ((p.2 : Int) : ℚ))
            (worldToLocal p.1) (worldToLocal p.2)]) ∧
      (button ≠ 0 → button ≠ 2 →
        (handleMouseUp st vp button clientX clientY).2 = [])) ∧
    (¬((getMouseGridCoordinates vp clientX clientY).cellX = p.1 ∧
        (getMouseGridCoordinates vp clientX clientY).cellY = p.2) →
      (handleMouseUp st vp button clientX clientY).2 = []) := by
  unfold handleMouseUp
  rw [hpan, hp]
  simp only [Bool.false_eq_true, if_false]
  split_ifs with hsame hboth h0 h2 <;>
    simp_all [List.mem_insert_iff]

/-- Concrete interaction state for the chord scenario: button 2 already
held, pressed cell (5,5), grid 200 by 200. -/
def stChord : InputState :=
  { pressedButtons := [2], pressedCell := some (5, 5), hoverCell := none,
    isPanning := false, lastMouse := none, isSpaceDown := false,
    gridSize := some { width := 200, height := 200 } }

/-- Identity viewport: zoom 1, no offset, rect at the origin. -/
def vpId : Viewport :=
  { offsetX := 0, offsetY := 0, zoom := 1, rectLeft := 0, rectTop := 0,
    canvasWidth := 800, canvasHeight := 600 }

/-- Witness for C2: releasing button 0 at cell (5,5) while button 2 is held
over the pressed cell (5,5) commits exactly the chord action. -/
theorem handleMouseUp_commit_cases_witness :
    ((∃ a b x y, Emit.chordClick a b x y ∈ (handleMouseUp stChord vpId 0 55 55).2) ↔
      (0 ∈ stChord.pressedButtons.insert 0 ∧ 2 ∈ stChord.pressedButtons.insert 0 ∧
        (getMouseGridCoordinates vpId 55 55).cellX = 5 ∧
        (getMouseGridCoordinates vpId 55 55).cellY = 5)) ∧
    ((getMouseGridCoordinates vpId 55 55).cellX = 5 →
      (getMouseGridCoordinates vpId 55 55).cellY = 5 →
      ¬(0 ∈ stChord.pressedButtons.insert 0 ∧ 2 ∈ stChord.pressedButtons.insert 0) →
      (0 = 0 →
        (handleMouseUp stChord vpId 0 55 55).2 =
          [Emit.revealCell (worldToChunk ((5 : Int) : ℚ)) (worldToChunk ((5 : Int) : ℚ))
            (worldToLocal 5) (worldToLocal 5)]) ∧
      (0 = 2 →
        (handleMouseUp stChord vpId 0 55 55).2 =
          [Emit.flagCell (worldToChunk ((5 : Int) : ℚ)) (worldToChunk ((5 : Int) : ℚ))
            (worldToLocal 5) (worldToLocal 5)]) ∧
      (0 ≠ 0 → 0 ≠ 2 → (handleMouseUp stChord vpId 0 55 55).2 = [])) ∧
    (¬((getMouseGridCoordinates vpId 55 55).cellX = 5 ∧
        (getMouseGridCoordinates vpId 55 55).cellY = 5) →
      (handleMouseUp stChord vpId 0 55 55).2 = []) :=
  handleMouseUp_commit_cases stChord vpId 0 55 55 (5, 5) rfl rfl

/-! ### C4: out-of-range pointer input -/

/-- Interaction state with a 200 by 200 grid and no press yet. -/
def stOutOfRange : InputState :=
  { pressedButtons := [], pressedCell := none, hoverCell := none,
    isPanning := false, lastMouse := none, isSpaceDown := false,
    gridSize := some { width := 200, height := 200 } }

/-- Viewport with zoom 1 and no offset, for the out-of-range scenario. -/
def vpOut : Viewport :=
  { offsetX := 0, offsetY := 0, zoom := 1, rectLeft := 0, rectTop := 0,
    canvasWidth := 800, canvasHeight := 600 }

/-- C4 counterexample: pointer at client (5000, 0) is cell (500, 0), far
beyond the 200 by 200 grid, yet mouse-down records it as the pressed cell
and mouse-up over it commits a reveal — the handlers only exclude negative
cell coordinates, not coordinates beyond the upper grid bounds. -/
theorem handlers_act_beyond_grid_bounds :
    ¬ isWithinGridBounds 500 0 200 200 ∧
    (handleMouseDown stOutOfRange vpOut 0 5000 0).pressedCell = some (500, 0) ∧
    (handleMouseUp (handleMouseDown stOutOfRange vpOut 0 5000 0) vpOut 0 5000 0).2 =
      [Emit.revealCell 5 0 0 0] := by
  refine ⟨by decide, ?_, ?_⟩
  · norm_num [handleMouseDown, getMouseGridCoordinates, stOutOfRange, vpOut,
      CELL_SIZE]
  · norm_num [handleMouseDown, handleMouseUp, getMouseGridCoordinates,
      stOutOfRange, vpOut, CELL_SIZE, worldToChunk, worldToLocal, CHUNK_SIZE,
      List.insert]
    try decide

/-- C4 amended: mouse-move never surfaces an out-of-bounds cell as the
hover cell (it clears the hover cell whenever its non-panning branch
runs), while mouse-down records the cell under the pointer exactly when
both its coordinates are non-negative — the upper grid bounds are not
checked on press, and release-side commits are governed only by equality
with the pressed cell (C2); no out-of-range input is an error. -/
theorem pointer_bounds_amended (st : InputState) (vp : Viewport)
    (button : Nat) (clientX clientY : ℚ) (g : GridSize)
    (hg : st.gridSize = some g) :
    (¬ isWithinGridBounds (getMouseGridCoordinates vp clientX clientY).cellX
        (getMouseGridCoordinates vp clientX clientY).cellY g.width g.height →
      (handleMouseMove st vp clientX clientY).1.hoverCell =
        if st.isPanning = true ∧ st.lastMouse.isSome = true then st.hoverCell
        else none) ∧
    (st.isSpaceDown = false →
      (handleMouseDown st vp button clientX clientY).pressedCell =
        if 0 ≤ (getMouseGridCoordinates vp clientX clientY).cellX ∧
            0 ≤ (getMouseGridCoordinates vp clientX clientY).cellY then
          some ((getMouseGridCoordinates vp clientX clientY).cellX,
            (getMouseGridCoordinates vp clientX clientY).cellY)
        else st.pressedCell) := by
  constructor
  · intro hout
    unfold handleMouseMove
    rw [hg]
    cases hpan : st.isPanning <;> cases hlm : st.lastMouse <;>
      simp_all
  · intro hspace
    unfold handleMouseDown
    rw [hspace]
    simp only [Bool.false_eq_true, if_false]
    split_ifs <;> simp

/-- Witness for the amended C4: at cell (500, 0) on the 200 by 200 grid the
hover cell is cleared, yet mouse-down still records the cell. -/
theorem pointer_bounds_amended_witness :
    (¬ isWithinGridBounds (getMouseGridCoordinates vpOut 5000 0).cellX
        (getMouseGridCoordinates vpOut 5000 0).cellY 200 200 →
      (handleMouseMove stOutOfRange vpOut 5000 0).1.hoverCell =
        if stOutOfRange.isPanning = true ∧ stOutOfRange.lastMouse.isSome = true then
          stOutOfRange.hoverCell
        else none) ∧
    (stOutOfRange.isSpaceDown = false →
      (handleMouseDown stOutOfRange vpOut 0 5000 0).pressedCell =
        if 0 ≤ (getMouseGridCoordinates vpOut 5000 0).cellX ∧
            0 ≤ (getMouseGridCoordinates vpOut 5000 0).cellY then
          some ((getMouseGridCoordinates vpOut 5000 0).cellX,
            (getMouseGridCoordinates vpOut 5000 0).cellY)
        else stOutOfRange.pressedCell) :=
  pointer_bounds_amended stOutOfRange vpOut 0 5000 0
    { width := 200, height := 200 } rfl

/-! ### Store helper lemmas -/

/-- requestChunk with a known grid size is the guarded pending-add. -/
theorem requestChunk_of_gridSize (s : ChunkedGridState) (g : GridSize)
    (cx cy : Int) (hg : s.gridSize = some g) :
    requestChunk s cx cy =
      if lookupChunk s (requestKey g s.chunkSize cx cy) = none ∧
          requestKey g s.chunkSize cx cy ∉ s.requestedChunks then
        ({ s with requestedChunks :=
            requestKey g s.chunkSize cx cy :: s.requestedChunks },
          [Emit.getChunk (requestKey g s.chunkSize cx cy).1
            (requestKey g s.chunkSize cx cy).2])
      else
        (s, []) := by
  unfold requestChunk
  rw [hg]

/-- Folding clearRequestedChunk over a list of keys filters all of them out
of the requested set and touches nothing else. -/
theorem foldl_clearRequestedChunk (l : List ChunkKey) (s : ChunkedGridState) :
    l.foldl (fun st k => clearRequestedChunk st k.1 k.2) s =
      { s with requestedChunks :=
          s.requestedChunks.filter (fun k => decide (k ∉ l)) } := by
  induction l generalizing s with
  | nil => simp
  | cons a l ih =>
    simp only [List.foldl_cons]
    rw [ih]
    unfold clearRequestedChunk
    congr 1
    rw [List.filter_filter]
    apply List.filter_congr
    intro x hx
    simp [List.mem_cons, not_or, Bool.and_comm]

/-- The connect_error handler empties the requested set and preserves every
other field. -/
theorem connectError_eq (s : ChunkedGridState) :
    connectError s = { s with requestedChunks := [] } := by
  unfold connectError
  rw [foldl_clearRequestedChunk]
  congr 1
  rw [List.filter_eq_nil_iff]
  intro x hx
  simp [hx]

/-- Lookup after prepending an entry to the cache. -/
theorem lookup_cons (L : List (ChunkKey × Chunk)) (key k : ChunkKey)
    (c : Chunk) :
    (((key, c) :: L).find? (fun p => decide (p.1 = k))).map Prod.snd =
      if key = k then some c
      else (L.find? (fun p => decide (p.1 = k))).map Prod.snd := by
  by_cases h : key = k
  · rw [List.find?_cons_of_pos _ (by simpa using h)]
    simp [h]
  · rw [List.find?_cons_of_neg _ (by simpa using h)]
    simp [h]

/-- requestChunk with an unknown grid size is a no-op. -/
theorem requestChunk_of_no_gridSize (s : ChunkedGridState) (cx cy : Int)
    (hg : s.gridSize = none) : requestChunk s cx cy = (s, []) := by
  unfold requestChunk
  rw [hg]

/-- Lookup in a state, unfolded to a find? over the cache list. -/
theorem lookupChunk_def (s : ChunkedGridState) (k : ChunkKey) :
    lookupChunk s k =
      (s.loadedChunks.find? (fun p => decide (p.1 = k))).map Prod.snd := rfl

/-- Lookup after setChunk: the stored key answers the new chunk, every
other key is unchanged. -/
theorem lookupChunk_setChunk (s : ChunkedGridState) (cx cy : Int)
    (chunk : Chunk) (k : ChunkKey) :
    lookupChunk (setChunk s cx cy chunk) k =
      if (cx, cy) = k then some chunk else lookupChunk s k := by
  rw [lookupChunk_def, lookupChunk_def]
  unfold setChunk
  exact lookup_cons s.loadedChunks (cx, cy) k chunk

/-- The requested set after setChunk. -/
theorem setChunk_requested (s : ChunkedGridState) (cx cy : Int)
    (chunk : Chunk) :
    (setChunk s cx cy chunk).requestedChunks =
      s.requestedChunks.filter (fun k => decide (k ≠ (cx, cy))) := rfl

/-- updateCell for an uncached key leaves the state unchanged. -/
theorem updateCell_of_lookup_none (s : ChunkedGridState) (cx cy x y : Int)
    (cell : Cell) (hl : lookupChunk s (cx, cy) = none) :
    updateCell s cx cy x y cell = s := by
  simp only [updateCell, hl]

/-- updateCell for a cached key re-stores the patched chunk at its key. -/
theorem updateCell_of_lookup_some (s : ChunkedGridState) (cx cy x y : Int)
    (cell : Cell) (chunk : Chunk) (hl : lookupChunk s (cx, cy) = some chunk) :
    updateCell s cx cy x y cell =
      { s with loadedChunks := ((cx, cy),
          chunk.mapIdx (fun rowIdx row =>
            if (rowIdx : Int) = y then
              row.mapIdx (fun colIdx c => if (colIdx : Int) = x then cell else c)
            else row)) :: s.loadedChunks } := by
  simp only [updateCell, hl]

/-- The pending-and-cached-disjointness invariant of the chunk store. -/
def cachePendingDisjoint (s : ChunkedGridState) : Prop :=
  ∀ k : ChunkKey, lookupChunk s k ≠ none → k ∉ s.requestedChunks

/-- Every store operation preserves cache/pending disjointness. -/
theorem cachePendingDisjoint_step (s : ChunkedGridState) (op : Op)
    (h : cachePendingDisjoint s) : cachePendingDisjoint (stepOp s op).1 := by
  cases op with
  | request cx cy =>
    show cachePendingDisjoint (requestChunk s cx cy).1
    cases hg : s.gridSize with
    | none =>
      rw [requestChunk_of_no_gridSize s cx cy hg]
      exact h
    | some g =>
      rw [requestChunk_of_gridSize s g cx cy hg]
      split_ifs with hcond
      · intro k hk hmem
        rcases List.mem_cons.mp hmem with rfl | hmem2
        · exact hk hcond.1
        · exact h k hk hmem2
      · exact h
  | chunkData cx cy chunk =>
    show cachePendingDisjoint (setChunk s cx cy chunk)
    intro k hk hmem
    rw [setChunk_requested] at hmem
    have hmem2 := List.mem_filter.mp hmem
    by_cases hkey : k = (cx, cy)
    · simp [hkey] at hmem2
    · rw [lookupChunk_setChunk, if_neg (fun hh => hkey hh.symm)] at hk
      exact h k hk hmem2.1
  | cellUpdate cx cy x y cell =>
    show cachePendingDisjoint (updateCell s cx cy x y cell)
    cases hl : lookupChunk s (cx, cy) with
    | none =>
      rw [updateCell_of_lookup_none s cx cy x y cell hl]
      exact h
    | some chunk =>
      rw [updateCell_of_lookup_some s cx cy x y cell chunk hl]
      intro k hk hmem
      by_cases hkey : k = (cx, cy)
      · subst hkey
        exact h (cx, cy) (by rw [hl]; exact Option.some_ne_none _) hmem
      · rw [lookupChunk_def] at hk
        rw [lookup_cons, if_neg (fun hh => hkey hh.symm)] at hk
        exact h k hk hmem
  | clearReq cx cy =>
    intro k hk hmem
    have hmem2 := List.mem_filter.mp hmem
    exact h k hk hmem2.1
  | setGrid w hgt =>
    intro k hk hmem
    exact h k hk hmem
  | connErr =>
    show cachePendingDisjoint (connectError s)
    rw [connectError_eq]
    intro k _ hmem
    simp at hmem

/-- Disjointness holds in every state reachable from a disjoint state. -/
theorem cachePendingDisjoint_run (ops : List Op) (s : ChunkedGridState)
    (h : cachePendingDisjoint s) : cachePendingDisjoint (runOps s ops) := by
  induction ops generalizing s with
  | nil => exact h
  | cons op ops ih =>
    exact ih (stepOp s op).1 (cachePendingDisjoint_step s op h)

/-! ### C3: cache and pending set are disjoint in every reachable state -/

/-- C3: in every store state reachable from the initial state no key is
both cached and pending; requestChunk marks a key pending only when it is
neither cached nor already pending; and setChunk caches its key and drops
it from the pending set in the same transition. -/
theorem reachable_cache_pending_disjoint (ops : List Op) (k : ChunkKey)
    (s : ChunkedGridState) (cx cy : Int) (chunk : Chunk) (k2 : ChunkKey)
    (h2 : k2 ∈ (requestChunk s cx cy).1.requestedChunks) :
    ¬(lookupChunk (runOps initialState ops) k ≠ none ∧
        k ∈ (runOps initialState ops).requestedChunks) ∧
    (k2 ∈ s.requestedChunks ∨
      (lookupChunk s k2 = none ∧ k2 ∉ s.requestedChunks)) ∧
    lookupChunk (setChunk s cx cy chunk) (cx, cy) = some chunk ∧
    (cx, cy) ∉ (setChunk s cx cy chunk).requestedChunks := by
  refine ⟨?_, ?_, ?_, ?_⟩
  · rintro ⟨hk, hmem⟩
    have hd : cachePendingDisjoint initialState := by
      intro k2 hk2 hm2
      simp [initialState] at hm2
    exact cachePendingDisjoint_run ops initialState hd k hk hmem
  · cases hg : s.gridSize with
    | none =>
      unfold requestChunk at h2
      rw [hg] at h2
      exact Or.inl h2
    | some g =>
      rw [requestChunk_of_gridSize s g cx cy hg] at h2
      by_cases hcond : lookupChunk s (requestKey g s.chunkSize cx cy) = none ∧
          requestKey g s.chunkSize cx cy ∉ s.requestedChunks
      · rw [if_pos hcond] at h2
        rcases List.mem_cons.mp h2 with rfl | hmem2
        · exact Or.inr hcond
        · exact Or.inl hmem2
      · rw [if_neg hcond] at h2
        exact Or.inl h2
  · unfold lookupChunk setChunk
    rw [lookup_cons, if_pos rfl]
  · intro hmem
    have hmem2 := List.mem_filter.mp hmem
    simp at hmem2

/-- Witness for C3: a concrete run that loads the grid size, requests and
receives chunk (0,0) and requests it again. -/
theorem reachable_cache_pending_disjoint_witness :
    (0, 0) ∈ (requestChunk { initialState with
        gridSize := some { width := 200, height := 200 } } 0 0).1.requestedChunks ∧
    (¬(lookupChunk (runOps initialState
          [Op.setGrid 200 200, Op.request 0 0, Op.chunkData 0 0 [],
            Op.request 0 0]) (0, 0) ≠ none ∧
        (0, 0) ∈ (runOps initialState
          [Op.setGrid 200 200, Op.request 0 0, Op.chunkData 0 0 [],
            Op.request 0 0]).requestedChunks) ∧
      ((0, 0) ∈ ({ initialState with
          gridSize := some { width := 200, height := 200 } } :
            ChunkedGridState).requestedChunks ∨
        (lookupChunk { initialState with
            gridSize := some { width := 200, height := 200 } } (0, 0) = none ∧
          (0, 0) ∉ ({ initialState with
            gridSize := some { width := 200, height := 200 } } :
              ChunkedGridState).requestedChunks)) ∧
      lookupChunk (setChunk { initialState with
          gridSize := some { width := 200, height := 200 } } 0 0 []) (0, 0) =
        some [] ∧
      (0, 0) ∉ (setChunk { initialState with
          gridSize := some { width := 200, height := 200 } } 0 0 []).requestedChunks) :=
  ⟨by decide,
    reachable_cache_pending_disjoint
      [Op.setGrid 200 200, Op.request 0 0, Op.chunkData 0 0 [], Op.request 0 0]
      (0, 0)
      { initialState with gridSize := some { width := 200, height := 200 } }
      0 0 [] (0, 0) (by decide)⟩

/-! ### C1: request dedup and at most one outstanding fetch per key -/

/-- The instrumentation invariant: a key has exactly one outstanding fetch
while it is pending and none otherwise. -/
def OutInv (t : TrackedState) : Prop :=
  ∀ k : ChunkKey,
    t.outstanding k = if k ∈ t.store.requestedChunks then 1 else 0

/-- The requested set after clearRequestedChunk. -/
theorem clearRequestedChunk_requested (s : ChunkedGridState) (cx cy : Int) :
    (clearRequestedChunk s cx cy).requestedChunks =
      s.requestedChunks.filter (fun k => decide (k ≠ (cx, cy))) := rfl

/-- Filtering a key out and then asking membership of another key is
membership in the original list. -/
theorem mem_filter_ne (l : List ChunkKey) (key k : ChunkKey) (hk : k ≠ key) :
    (k ∈ l.filter (fun x => decide (x ≠ key))) ↔ k ∈ l := by
  constructor
  · intro hmem
    exact (List.mem_filter.mp hmem).1
  · intro hmem
    exact List.mem_filter.mpr ⟨hmem, by simpa using hk⟩

/-- Every operation preserves the outstanding-fetch invariant. -/
theorem outInv_step (t : TrackedState) (op : Op) (h : OutInv t) :
    OutInv (stepTracked t op) := by
  cases op with
  | request cx cy =>
    intro k
    show t.outstanding k + ((requestChunk t.store cx cy).2.countP
        (fun e => decide (e = Emit.getChunk k.1 k.2)))
      = if k ∈ (requestChunk t.store cx cy).1.requestedChunks then 1 else 0
    cases hg : t.store.gridSize with
    | none =>
      rw [requestChunk_of_no_gridSize t.store cx cy hg]
      simpa using h k
    | some g =>
      rw [requestChunk_of_gridSize t.store g cx cy hg]
      by_cases hcond : lookupChunk t.store (requestKey g t.store.chunkSize cx cy) = none ∧
          requestKey g t.store.chunkSize cx cy ∉ t.store.requestedChunks
      · rw [if_pos hcond]
        show t.outstanding k + List.countP
            (fun e => decide (e = Emit.getChunk k.1 k.2))
            [Emit.getChunk (requestKey g t.store.chunkSize cx cy).1
              (requestKey g t.store.chunkSize cx cy).2]
          = if k ∈ requestKey g t.store.chunkSize cx cy ::
              t.store.requestedChunks then 1 else 0
        by_cases hk : k = requestKey g t.store.chunkSize cx cy
        · rw [hk]
          have hoz : t.outstanding (requestKey g t.store.chunkSize cx cy) = 0 := by
            rw [h _, if_neg hcond.2]
          simp [hoz]
        · have hne : (decide (Emit.getChunk (requestKey g t.store.chunkSize cx cy).1
              (requestKey g t.store.chunkSize cx cy).2 =
                Emit.getChunk k.1 k.2)) = false := by
            apply decide_eq_false
            intro he
            injection he with he1 he2
            exact hk (Prod.ext he1 he2).symm
          simp only [List.countP_cons, List.countP_nil, hne,
            Bool.false_eq_true, if_false]
          by_cases hmem : k ∈ t.store.requestedChunks
          · rw [if_pos (List.mem_cons_of_mem _ hmem)]
            have ho := h k
            rw [if_pos hmem] at ho
            omega
          · rw [if_neg]
            · have ho := h k
              rw [if_neg hmem] at ho
              omega
            · intro hmc
              rcases List.mem_cons.mp hmc with rfl | hm2
              · exact hk rfl
              · exact hmem hm2
      · rw [if_neg hcond]
        simpa using h k
  | chunkData cx cy chunk =>
    intro k
    show (if k = (cx, cy) then 0 else t.outstanding k)
      = if k ∈ (setChunk t.store cx cy chunk).requestedChunks then 1 else 0
    rw [setChunk_requested]
    by_cases hk : k = (cx, cy)
    · rw [if_pos hk, if_neg]
      intro hmem
      have := (List.mem_filter.mp hmem).2
      simp [hk] at this
    · rw [if_neg hk, h k]
      by_cases hmem : k ∈ t.store.requestedChunks
      · rw [if_pos hmem, if_pos ((mem_filter_ne _ _ _ hk).mpr hmem)]
      · rw [if_neg hmem, if_neg (fun hf => hmem ((mem_filter_ne _ _ _ hk).mp hf))]
  | cellUpdate cx cy x y cell =>
    intro k
    show t.outstanding k
      = if k ∈ (updateCell t.store cx cy x y cell).requestedChunks then 1 else 0
    cases hl : lookupChunk t.store (cx, cy) with
    | none =>
      rw [updateCell_of_lookup_none t.store cx cy x y cell hl]
      exact h k
    | some chunk =>
      rw [updateCell_of_lookup_some t.store cx cy x y cell chunk hl]
      exact h k
  | clearReq cx cy =>
    intro k
    show (if k = (cx, cy) then 0 else t.outstanding k)
      = if k ∈ (clearRequestedChunk t.store cx cy).requestedChunks then 1 else 0
    rw [clearRequestedChunk_requested]
    by_cases hk : k = (cx, cy)
    · rw [if_pos hk, if_neg]
      intro hmem
      have := (List.mem_filter.mp hmem).2
      simp [hk] at this
    · rw [if_neg hk, h k]
      by_cases hmem : k ∈ t.store.requestedChunks
      · rw [if_pos hmem, if_pos ((mem_filter_ne _ _ _ hk).mpr hmem)]
      · rw [if_neg hmem, if_neg (fun hf => hmem ((mem_filter_ne _ _ _ hk).mp hf))]
  | setGrid w hgt =>
    intro k
    exact h k
  | connErr =>
    intro k
    show (if k ∈ t.store.requestedChunks then 0 else t.outstanding k)
      = if k ∈ (connectError t.store).requestedChunks then 1 else 0
    rw [connectError_eq]
    by_cases hk : k ∈ t.store.requestedChunks
    · simp [hk]
    · simp [hk, h k]

/-- The invariant holds along every run from the initial state. -/
theorem outInv_run (ops : List Op) (t : TrackedState) (h : OutInv t) :
    OutInv (runTracked t ops) := by
  induction ops generalizing t with
  | nil => exact h
  | cons op ops ih => exact ih (stepTracked t op) (outInv_step t op h)

/-- C1: requesting a key that is already pending changes nothing and emits
nothing; from a state where the clamped key is neither cached nor pending,
two requestChunk calls whose coordinates clamp to the same key leave
exactly one pending marker and emit exactly one fetch; and along every
operation sequence from the initial state every key has at most one
outstanding fetch. -/
theorem requestChunk_dedup (s : ChunkedGridState) (g : GridSize)
    (cx cy cx2 cy2 : Int) (ops : List Op) (kk : ChunkKey)
    (hg : s.gridSize = some g)
    (hkeq : requestKey g s.chunkSize cx2 cy2 = requestKey g s.chunkSize cx cy) :
    (requestKey g s.chunkSize cx cy ∈ s.requestedChunks →
      requestChunk s cx cy = (s, [])) ∧
    (lookupChunk s (requestKey g s.chunkSize cx cy) = none →
      requestKey g s.chunkSize cx cy ∉ s.requestedChunks →
      (requestChunk (requestChunk s cx cy).1 cx2 cy2).1.requestedChunks.count
          (requestKey g s.chunkSize cx cy) = 1 ∧
      (requestChunk s cx cy).2 ++ (requestChunk (requestChunk s cx cy).1 cx2 cy2).2 =
        [Emit.getChunk (requestKey g s.chunkSize cx cy).1
          (requestKey g s.chunkSize cx cy).2]) ∧
    (runTracked initialTracked ops).outstanding kk ≤ 1 := by
  refine ⟨?_, ?_, ?_⟩
  · intro hpend
    rw [requestChunk_of_gridSize s g cx cy hg]
    rw [if_neg]
    intro hcond
    exact hcond.2 hpend
  · intro hcache hpend
    have h1 : requestChunk s cx cy =
        ({ s with requestedChunks :=
            requestKey g s.chunkSize cx cy :: s.requestedChunks },
          [Emit.getChunk (requestKey g s.chunkSize cx cy).1
            (requestKey g s.chunkSize cx cy).2]) := by
      rw [requestChunk_of_gridSize s g cx cy hg, if_pos ⟨hcache, hpend⟩]
    have hg1 : (requestChunk s cx cy).1.gridSize = some g := by
      rw [h1]
      exact hg
    have hcs1 : (requestChunk s cx cy).1.chunkSize = s.chunkSize := by
      rw [h1]
    have h2 : requestChunk (requestChunk s cx cy).1 cx2 cy2 =
        ((requestChunk s cx cy).1, []) := by
      rw [requestChunk_of_gridSize (requestChunk s cx cy).1 g cx2 cy2 hg1]
      rw [if_neg]
      intro hcond
      apply hcond.2
      rw [hcs1, hkeq, h1]
      exact List.mem_cons_self _ _
    constructor
    · rw [h2, h1]
      simp only [List.count_cons_self]
      rw [List.count_eq_zero.mpr hpend]
    · rw [h2, h1]
      rfl
  · have hinv : OutInv initialTracked := by
      intro k
      simp [initialTracked, initialState]
    have := outInv_run ops initialTracked hinv kk
    rw [this]
    split_ifs <;> omega

/-- Witness for C1: on a 200 by 200 grid, requesting chunk (0,0) twice in
a row on an empty store yields one pending marker and one emitted fetch,
and a concrete run with a duplicate request keeps outstanding at most 1. -/
theorem requestChunk_dedup_witness :
    (requestKey { width := 200, height := 200 } 100 0 0 ∈
        ({ initialState with gridSize := some { width := 200, height := 200 } } :
          ChunkedGridState).requestedChunks →
      requestChunk { initialState with
        gridSize := some { width := 200, height := 200 } } 0 0 =
        ({ initialState with gridSize := some { width := 200, height := 200 } }, [])) ∧
    (lookupChunk { initialState with
        gridSize := some { width := 200, height := 200 } }
        (requestKey { width := 200, height := 200 } 100 0 0) = none →
      requestKey { width := 200, height := 200 } 100 0 0 ∉
        ({ initialState with gridSize := some { width := 200, height := 200 } } :
          ChunkedGridState).requestedChunks →
      (requestChunk (requestChunk { initialState with
          gridSize := some { width := 200, height := 200 } } 0 0).1 0
          0).1.requestedChunks.count
          (requestKey { width := 200, height := 200 } 100 0 0) = 1 ∧
      (requestChunk { initialState with
          gridSize := some { width := 200, height := 200 } } 0 0).2 ++
        (requestChunk (requestChunk { initialState with
          gridSize := some { width := 200, height := 200 } } 0 0).1 0 0).2 =
        [Emit.getChunk (requestKey { width := 200, height := 200 } 100 0 0).1
          (requestKey { width := 200, height := 200 } 100 0 0).2]) ∧
    (runTracked initialTracked
      [Op.setGrid 200 200, Op.request 0 0, Op.request 0 0]).outstanding (0, 0) ≤ 1 :=
  requestChunk_dedup
    { initialState with gridSize := some { width := 200, height := 200 } }
    { width := 200, height := 200 } 0 0 0 0
    [Op.setGrid 200 200, Op.request 0 0, Op.request 0 0] (0, 0) rfl rfl

/-! ### C6: connectivity faults make pending keys retry-eligible -/

/-- C6: after the connect_error handler, every previously pending key is out
of the pending set while the cache is untouched, and if the key was not
cached a subsequent requestChunk for it passes the dedup check, marks it
pending again and emits a fresh fetch. -/
theorem connectError_retry_eligible (s : ChunkedGridState) (g : GridSize)
    (k : ChunkKey) (hg : s.gridSize = some g) (_hpend : k ∈ s.requestedChunks) :
    k ∉ (connectError s).requestedChunks ∧
    (connectError s).loadedChunks = s.loadedChunks ∧
    (lookupChunk s k = none →
      requestKey g s.chunkSize k.1 k.2 = k →
      requestChunk (connectError s) k.1 k.2 =
        ({ connectError s with requestedChunks := [k] },
          [Emit.getChunk k.1 k.2])) := by
  refine ⟨?_, ?_, ?_⟩
  · rw [connectError_eq]
    simp
  · rw [connectError_eq]
  · intro hcache hclamp
    have hg2 : (connectError s).gridSize = some g := by
      rw [connectError_eq]
      exact hg
    have hcs : (connectError s).chunkSize = s.chunkSize := by
      rw [connectError_eq]
    have hcond : lookupChunk (connectError s) k = none ∧
        k ∉ (connectError s).requestedChunks := by
      constructor
      · rw [connectError_eq]
        exact hcache
      · rw [connectError_eq]
        simp
    rw [requestChunk_of_gridSize _ g k.1 k.2 hg2, hcs, hclamp, if_pos hcond]
    rw [connectError_eq]

/-- Store with one pending key (0,0) on a 200 by 200 grid. -/
def sPendingOne : ChunkedGridState :=
  { initialState with
    gridSize := some { width := 200, height := 200 }
    requestedChunks := [(0, 0)] }

/-- Witness for C6: a store whose only pending key is (0,0) on a 200 by
200 grid; after the fault the key is gone from pending, the cache is
unchanged, and re-requesting emits a fresh fetch. -/
theorem connectError_retry_eligible_witness :
    (0, 0) ∉ (connectError sPendingOne).requestedChunks ∧
    (connectError sPendingOne).loadedChunks = sPendingOne.loadedChunks ∧
    (lookupChunk sPendingOne (0, 0) = none →
      requestKey { width := 200, height := 200 } sPendingOne.chunkSize 0 0 = (0, 0) →
      requestChunk (connectError sPendingOne) 0 0 =
        ({ connectError sPendingOne with requestedChunks := [(0, 0)] },
          [Emit.getChunk 0 0])) :=
  connectError_retry_eligible sPendingOne
    { width := 200, height := 200 } (0, 0) rfl (by decide)

/-! ### C10: the clamp bound is floor-based -/

/-- C10: with a known grid size, requestChunk either does nothing or marks
pending and fetches exactly the key clamped into
[0, floor(width/100) − 1] × [0, floor(height/100) − 1]; when a dimension is
not a multiple of the chunk size the chunk covering the trailing partial
strip (the chunk of cell width − 1) is never fetched; and when a dimension
is below the chunk size the clamp bound is −1 yet coordinate 0 is used. -/
theorem requestChunk_floor_clamp (s : ChunkedGridState) (g : GridSize)
    (cx cy cx2 cy2 : Int) (hg : s.gridSize = some g) (hcs : s.chunkSize = 100) :
    (requestChunk s cx cy = (s, []) ∨
      requestChunk s cx cy =
        ({ s with requestedChunks :=
            requestKey g 100 cx cy :: s.requestedChunks },
          [Emit.getChunk (requestKey g 100 cx cy).1 (requestKey g 100 cx cy).2])) ∧
    requestKey g 100 cx cy =
      (max 0 (min cx (Int.fdiv g.width 100 - 1)),
        max 0 (min cy (Int.fdiv g.height 100 - 1))) ∧
    (100 ≤ g.width → ¬((100 : Int) ∣ g.width) →
      Emit.getChunk cx2 cy2 ∈ (requestChunk s cx cy).2 →
      cx2 ≠ Int.fdiv (g.width - 1) 100) ∧
    (0 ≤ g.width → g.width < 100 →
      maxChunkCoord g.width 100 = -1 ∧ (requestKey g 100 cx cy).1 = 0) := by
  have hchar := requestChunk_of_gridSize s g cx cy hg
  have hkey100 : requestKey g s.chunkSize cx cy = requestKey g 100 cx cy := by
    rw [hcs]
  refine ⟨?_, rfl, ?_, ?_⟩
  · rw [hchar, hkey100]
    split_ifs with hcond
    · exact Or.inr rfl
    · exact Or.inl rfl
  · intro hw hdvd hmem
    have hkey : cx2 = (requestKey g 100 cx cy).1 := by
      rw [hchar, hkey100] at hmem
      by_cases hcond : lookupChunk s (requestKey g 100 cx cy) = none ∧
          requestKey g 100 cx cy ∉ s.requestedChunks
      · rw [if_pos hcond] at hmem
        have hmem2 : Emit.getChunk cx2 cy2 ∈
            [Emit.getChunk (requestKey g 100 cx cy).1
              (requestKey g 100 cx cy).2] := hmem
        have he := List.mem_singleton.mp hmem2
        simp only [Emit.getChunk.injEq] at he
        exact he.1
      · rw [if_neg hcond] at hmem
        have hmem2 : Emit.getChunk cx2 cy2 ∈ ([] : List Emit) := hmem
        simp at hmem2
    rw [hkey]
    show clampChunkCoord cx (maxChunkCoord g.width 100) ≠ Int.fdiv (g.width - 1) 100
    unfold clampChunkCoord maxChunkCoord
    rw [Int.fdiv_eq_ediv _ (by norm_num), Int.fdiv_eq_ediv _ (by norm_num)]
    omega
  · intro hw0 hw
    constructor
    · unfold maxChunkCoord
      rw [Int.fdiv_eq_ediv _ (by norm_num)]
      omega
    · show clampChunkCoord cx (maxChunkCoord g.width 100) = 0
      unfold clampChunkCoord maxChunkCoord
      rw [Int.fdiv_eq_ediv _ (by norm_num)]
      omega

/-- Grid size 250 by 250, not a multiple of the chunk size. -/
def g250 : GridSize := { width := 250, height := 250 }

/-- Empty store with a 250 by 250 grid size, whose width is not a multiple
of the chunk size. -/
def sGrid250 : ChunkedGridState :=
  { initialState with gridSize := some g250 }

/-- Witness for C10: a 250 by 250 grid clamps request (5,7) to chunk (1,1),
no emitted fetch can name trailing chunk 2, and on a sub-chunk-size grid
the bound is −1 while coordinate 0 is used. -/
theorem requestChunk_floor_clamp_witness :
    (requestChunk sGrid250 5 7 = (sGrid250, []) ∨
      requestChunk sGrid250 5 7 =
        ({ sGrid250 with requestedChunks := requestKey g250 100 5 7 :: sGrid250.requestedChunks },
          [Emit.getChunk (requestKey g250 100 5 7).1
            (requestKey g250 100 5 7).2])) ∧
    requestKey g250 100 5 7 =
      (max 0 (min 5 (Int.fdiv 250 100 - 1)), max 0 (min 7 (Int.fdiv 250 100 - 1))) ∧
    (100 ≤ (250 : Int) → ¬((100 : Int) ∣ 250) →
      Emit.getChunk 2 0 ∈ (requestChunk sGrid250 5 7).2 →
      (2 : Int) ≠ Int.fdiv (250 - 1) 100) ∧
    ((0 : Int) ≤ 250 → (250 : Int) < 100 →
      maxChunkCoord 250 100 = -1 ∧
        (requestKey g250 100 5 7).1 = 0) :=
  requestChunk_floor_clamp sGrid250 g250 5 7 2 0 rfl rfl

/-! ### C7: the final chunk rectangle versus the visible chunk rectangle -/

/-- Membership in the emitted chunk list is exactly the final rectangle. -/
theorem mem_calculateVisibleChunks (g : GridSize)
    (offsetX offsetY zoom cw ch : ℚ) (cx cy : Int) :
    (cx, cy) ∈ calculateVisibleChunks (some g) offsetX offsetY zoom cw ch ↔
      ((finalChunkBounds g offsetX offsetY zoom cw ch).left ≤ cx ∧
        cx ≤ (finalChunkBounds g offsetX offsetY zoom cw ch).right ∧
        (finalChunkBounds g offsetX offsetY zoom cw ch).top ≤ cy ∧
        cy ≤ (finalChunkBounds g offsetX offsetY zoom cw ch).bottom) := by
  unfold calculateVisibleChunks
  simp only [List.mem_flatMap, List.mem_map, mem_rangeInc, Prod.mk.injEq]
  constructor
  · rintro ⟨a, ⟨ha1, ha2⟩, b, ⟨hb1, hb2⟩, rfl, rfl⟩
    exact ⟨hb1, hb2, ha1, ha2⟩
  · rintro ⟨h1, h2, h3, h4⟩
    exact ⟨cy, ⟨h3, h4⟩, cx, ⟨h1, h2⟩, rfl, rfl⟩

/-- C7 counterexample: on the 250 by 250 grid, viewport offset (−2000, 0),
zoom 1 and an 800 by 600 canvas, chunk (2,0) lies inside the un-buffered
visible chunk rectangle yet outside the emitted final rectangle, because
the clamp bound floor(250/100) − 1 = 1 cuts the trailing partial chunk
away — the final rectangle is not a superset of the visible one. -/
theorem finalChunkBounds_not_superset :
    (visibleChunkBounds (some g250) (-2000) 0 1 800 600).left ≤ 2 ∧
    2 ≤ (visibleChunkBounds (some g250) (-2000) 0 1 800 600).right ∧
    (visibleChunkBounds (some g250) (-2000) 0 1 800 600).top ≤ 0 ∧
    0 ≤ (visibleChunkBounds (some g250) (-2000) 0 1 800 600).bottom ∧
    (2, 0) ∉ calculateVisibleChunks (some g250) (-2000) 0 1 800 600 := by
  have hb : getVisibleBounds (some g250) (-2000) 0 1 800 600 =
      (200, 0, 250, 60) := by
    norm_num [getVisibleBounds, g250, CELL_SIZE]
  have hv : visibleChunkBounds (some g250) (-2000) 0 1 800 600 =
      { left := 2, top := 0, right := 2, bottom := 0 } := by
    unfold visibleChunkBounds
    rw [hb]
    decide
  have hf : finalChunkBounds g250 (-2000) 0 1 800 600 =
      { left := 0, top := 0, right := 1, bottom := 1 } := by
    unfold finalChunkBounds
    rw [hv]
    decide
  refine ⟨by rw [hv], by rw [hv], by rw [hv], by rw [hv], ?_⟩
  rw [mem_calculateVisibleChunks, hf]
  decide

/-- C7 amended: every emitted chunk lies within
[0, maxChunkX] × [0, maxChunkY], and the final rectangle contains every
chunk of the un-buffered visible rectangle that itself lies within those
grid bounds (rather than every visible chunk outright), provided each grid
dimension spans at least one full chunk. -/
theorem calculateVisibleChunks_amended (g : GridSize)
    (offsetX offsetY zoom cw ch : ℚ) (cx cy cx2 cy2 : Int)
    (hw : CHUNK_SIZE ≤ g.width) (hh : CHUNK_SIZE ≤ g.height) :
    ((cx2, cy2) ∈ calculateVisibleChunks (some g) offsetX offsetY zoom cw ch →
      0 ≤ cx2 ∧ cx2 ≤ maxChunkCoord g.width CHUNK_SIZE ∧
      0 ≤ cy2 ∧ cy2 ≤ maxChunkCoord g.height CHUNK_SIZE) ∧
    ((visibleChunkBounds (some g) offsetX offsetY zoom cw ch).left ≤ cx →
      cx ≤ (visibleChunkBounds (some g) offsetX offsetY zoom cw ch).right →
      (visibleChunkBounds (some g) offsetX offsetY zoom cw ch).top ≤ cy →
      cy ≤ (visibleChunkBounds (some g) offsetX offsetY zoom cw ch).bottom →
      0 ≤ cx → cx ≤ maxChunkCoord g.width CHUNK_SIZE →
      0 ≤ cy → cy ≤ maxChunkCoord g.height CHUNK_SIZE →
      (cx, cy) ∈ calculateVisibleChunks (some g) offsetX offsetY zoom cw ch) := by
  have hbuf := getBufferZoneSize_nonneg zoom
  have hedW : Int.fdiv g.width CHUNK_SIZE = g.width / 100 := by
    unfold CHUNK_SIZE
    exact Int.fdiv_eq_ediv _ (by norm_num)
  have hedH : Int.fdiv g.height CHUNK_SIZE = g.height / 100 := by
    unfold CHUNK_SIZE
    exact Int.fdiv_eq_ediv _ (by norm_num)
  have hfbL : (finalChunkBounds g offsetX offsetY zoom cw ch).left =
      max 0 (min (max 0 ((visibleChunkBounds (some g) offsetX offsetY zoom cw ch).left -
        getBufferZoneSize zoom)) (Int.fdiv g.width CHUNK_SIZE - 1)) := rfl
  have hfbR : (finalChunkBounds g offsetX offsetY zoom cw ch).right =
      max 0 (min ((visibleChunkBounds (some g) offsetX offsetY zoom cw ch).right +
        getBufferZoneSize zoom) (Int.fdiv g.width CHUNK_SIZE - 1)) := rfl
  have hfbT : (finalChunkBounds g offsetX offsetY zoom cw ch).top =
      max 0 (min (max 0 ((visibleChunkBounds (some g) offsetX offsetY zoom cw ch).top -
        getBufferZoneSize zoom)) (Int.fdiv g.height CHUNK_SIZE - 1)) := rfl
  have hfbB : (finalChunkBounds g offsetX offsetY zoom cw ch).bottom =
      max 0 (min ((visibleChunkBounds (some g) offsetX offsetY zoom cw ch).bottom +
        getBufferZoneSize zoom) (Int.fdiv g.height CHUNK_SIZE - 1)) := rfl
  rw [hedW] at hfbL hfbR
  rw [hedH] at hfbT hfbB
  unfold CHUNK_SIZE at hw hh
  constructor
  · intro hc
    rw [mem_calculateVisibleChunks, hfbL, hfbR, hfbT, hfbB] at hc
    unfold maxChunkCoord
    rw [hedW, hedH]
    omega
  · intro h1 h2 h3 h4 h5 h6 h7 h8
    unfold maxChunkCoord at h6 h8
    rw [hedW] at h6
    rw [hedH] at h8
    rw [mem_calculateVisibleChunks, hfbL, hfbR, hfbT, hfbB]
    omega

/-- Grid size 200 by 200, an exact multiple of the chunk size. -/
def g200 : GridSize := { width := 200, height := 200 }

/-- Witness for the amended C7: on a 200 by 200 grid at zoom 1 with no
offset, chunk (1,1) is emitted and in bounds, and visible chunk (0,0) is
contained in the final rectangle. -/
theorem calculateVisibleChunks_amended_witness :
    ((1, 1) ∈ calculateVisibleChunks (some g200) 0 0 1 800 600 →
      0 ≤ (1 : Int) ∧ (1 : Int) ≤ maxChunkCoord g200.width CHUNK_SIZE ∧
      0 ≤ (1 : Int) ∧ (1 : Int) ≤ maxChunkCoord g200.height CHUNK_SIZE) ∧
    ((visibleChunkBounds (some g200) 0 0 1 800 600).left ≤ 0 →
      (0 : Int) ≤ (visibleChunkBounds (some g200) 0 0 1 800 600).right →
      (visibleChunkBounds (some g200) 0 0 1 800 600).top ≤ 0 →
      (0 : Int) ≤ (visibleChunkBounds (some g200) 0 0 1 800 600).bottom →
      (0 : Int) ≤ 0 → (0 : Int) ≤ maxChunkCoord g200.width CHUNK_SIZE →
      (0 : Int) ≤ 0 → (0 : Int) ≤ maxChunkCoord g200.height CHUNK_SIZE →
      (0, 0) ∈ calculateVisibleChunks (some g200) 0 0 1 800 600) :=
  calculateVisibleChunks_amended g200 0 0 1 800 600 0 0 1 1
    (by norm_num [CHUNK_SIZE, g200]) (by norm_num [CHUNK_SIZE, g200])

end MassiveSweeper
